import Mathlib

/-!
Verification of the Purrify reaction module (src/module/reaction.rs) against
its specification.  The command-handling code (`ReactionModule::init`,
`ReactionModule::handle`) is embedded directly from the Rust source.  The
backend cache manager (`src/module/reaction/backend.rs`) is not part of the
provided sources, so its operations (`build_cache`, `get_cached`,
`refresh_cache`) are modelled from the specification, as noted on each
definition.
-/

namespace Purrify

/-! ## Data model (from `src/module/reaction.rs`) -/

/-- The `Reaction` struct of `src/module/reaction.rs` (lines 13-29). -/
structure Reaction where
  name : String
  description : String
  «alias» : Bool
  backends : List String
  default_responses : List String
  bot_responses : List String
  self_responses : List String
deriving Repr, DecidableEq

/-! ## Cache store and manager operations

`mod backend;` (the `BackendManager`) is declared in `reaction.rs` but its
source file is not under `src/`; the definitions below are modelled from the
specification (§4.2 Cache Store, §4.3 Cache Manager). -/

/-- A cache key: `(backend_id, endpoint_id)` (spec §3, CacheKey). -/
abbrev CacheKey := String × String

/-- Modelled from the spec (§4.2): the Cache Store is a mapping from
`CacheKey` to the last-fetched URL; we represent it as an association list
with at most one binding per key. -/
abbrev Store := List (CacheKey × String)

instance {ε α : Type} [DecidableEq ε] [DecidableEq α] : DecidableEq (Except ε α)
  | .ok a, .ok b => if h : a = b then .isTrue (by rw [h]) else .isFalse (by simp [h])
  | .ok _, .error _ => .isFalse (by simp)
  | .error _, .ok _ => .isFalse (by simp)
  | .error a, .error b => if h : a = b then .isTrue (by rw [h]) else .isFalse (by simp [h])

/-- Modelled from the spec (§4.1): `FetchError` variants. -/
inductive FetchError where
  | unknownBackend
  | unknownEndpoint
  | networkFailure
  | malformedResponse
deriving Repr, DecidableEq

/-- Modelled from the spec (§4.2): `get(key)` — non-blocking lookup,
`none` if never populated. -/
def Store.get (s : Store) (k : CacheKey) : Option String :=
  match s with
  | [] => none
  | (k', u) :: rest => if k' = k then some u else Store.get rest k

/-- Modelled from the spec (§4.2): `put(key, url)` — overwrites or inserts
the entry for `key`, leaving all other entries untouched. -/
def Store.put (s : Store) (k : CacheKey) (url : String) : Store :=
  (k, url) :: s.filter (fun p => p.1 ≠ k)

/-- Modelled from the spec (§4.3): `get_cached(backend, endpoint)` is a pure
lookup into the Store; it performs no I/O and reports `none`
(`NotCachedError`) if the key was never populated. -/
def get_cached (s : Store) (backend endpoint : String) : Option String :=
  Store.get s (backend, endpoint)

/-- Modelled from the spec (§4.3): `refresh_cache(backend, endpoint)`
performs a fresh fetch (whose outcome is passed in as `fetchRes`) and, on
success, `put`s the new value; on failure the prior cached value is left
untouched and the `FetchError` is returned. -/
def refresh_cache (s : Store) (k : CacheKey) (fetchRes : Except FetchError String) :
    Store × Except FetchError Unit :=
  match fetchRes with
  | .ok url => (Store.put s k url, .ok ())
  | .error e => (s, .error e)

/-- Modelled from the spec (§4.3): one warm-up attempt of `build_cache` —
fetch the pair and `put` the result, or leave the store unchanged when the
fetch fails. -/
def buildStep (fetch : CacheKey → Except FetchError String) (s : Store) (k : CacheKey) : Store :=
  match fetch k with
  | .ok url => Store.put s k url
  | .error _ => s

/-- Modelled from the spec (§4.3): `build_cache()` — for every
`(backend, endpoint)` pair, performs an initial fetch and `put`s the result;
best-effort: a pair whose fetch fails is skipped (left unpopulated) and does
not abort the warm-up. -/
def build_cache (pairs : List CacheKey) (fetch : CacheKey → Except FetchError String) : Store :=
  pairs.foldl (buildStep fetch) []

/-! ## Basic store lemmas -/

theorem Store.get_put_same (s : Store) (k : CacheKey) (u : String) :
    Store.get (Store.put s k u) k = some u := by
  simp [Store.put, Store.get]

theorem Store.get_filter_ne (s : Store) (k k' : CacheKey) (hk : k' ≠ k) :
    Store.get (s.filter (fun p => p.1 ≠ k)) k' = Store.get s k' := by
  induction s with
  | nil => rfl
  | cons p rest ih =>
    simp only [List.filter_cons, ne_eq, decide_not] at ih ⊢
    by_cases hp : p.1 = k
    · simp [hp, Store.get, Ne.symm hk, ih]
    · simp [hp, Store.get, ih]

theorem Store.get_put_ne (s : Store) (k k' : CacheKey) (u : String) (h : k' ≠ k) :
    Store.get (Store.put s k u) k' = Store.get s k' := by
  have h' : ¬ k = k' := fun hh => h hh.symm
  simp only [Store.put, Store.get, h', if_false]
  exact Store.get_filter_ne s k k' h

/-! ## Command interaction data (serenity types, as used by `handle`) -/

/-- Value of an innermost command option (`CommandDataOptionValue` at leaf
level); only `User` carries a user id usable by `as_user_id`. -/
inductive LeafValue where
  | user (id : Nat)
  | other
deriving Repr, DecidableEq

/-- A leaf command option, as found inside a subcommand. -/
structure LeafOption where
  name : String
  value : LeafValue
deriving Repr, DecidableEq

/-- Value of a top-level command option: either a subcommand holding nested
options, or a leaf value. -/
inductive TopValue where
  | subCommand (opts : List LeafOption)
  | leaf (v : LeafValue)
deriving Repr, DecidableEq

/-- A top-level command option (`cmd.data.options` element). -/
structure TopOption where
  name : String
  value : TopValue
deriving Repr, DecidableEq

/-- `CommandDataOptionValue::as_user_id` on a leaf value. -/
def LeafValue.as_user_id : LeafValue → Option Nat
  | .user id => some id
  | .other => none

/-- `CommandDataOptionValue::as_user_id` on a top-level value: a subcommand
carries no user id. -/
def TopValue.as_user_id : TopValue → Option Nat
  | .leaf v => v.as_user_id
  | .subCommand _ => none

/-- Split a character list at the first occurrence of `c`: the part before
it and the whole remainder after it, or `none` when `c` does not occur. -/
def splitCharsAtFirst (c : Char) : List Char → Option (List Char × List Char)
  | [] => none
  | x :: xs =>
    if x = c then some ([], xs)
    else
      match splitCharsAtFirst c xs with
      | none => none
      | some (pre, post) => some (x :: pre, post)

/-- `str::splitn(2, "/")`: the part before the first `/`, and — when a `/`
occurs — the whole remainder after it. -/
def splitn2 (s : String) : String × Option String :=
  match splitCharsAtFirst '/' s.toList with
  | none => (s, none)
  | some (pre, post) => (⟨pre⟩, some ⟨post⟩)

/-- `str::starts_with`: the pattern's characters are a prefix of the
string's. -/
def startsWithStr (s pat : String) : Bool :=
  pat.toList.isPrefixOf s.toList

/-- `str::replace` for a nonempty pattern: replace every non-overlapping
occurrence of `pat`, scanning left to right. -/
def replaceChars (pat rep : List Char) : List Char → List Char
  | [] => []
  | x :: xs =>
    if h : pat ≠ [] ∧ pat.isPrefixOf (x :: xs) then
      rep ++ replaceChars pat rep ((x :: xs).drop pat.length)
    else
      x :: replaceChars pat rep xs
termination_by l => l.length
decreasing_by
  · have hp : 0 < pat.length := List.length_pos.mpr h.1
    simp only [List.length_drop, List.length_cons]
    omega
  · simp only [List.length_cons]
    omega

/-- `str::replace` on strings (nonempty pattern). -/
def strReplace (s pat rep : String) : String :=
  ⟨replaceChars pat.toList rep.toList s.toList⟩

/-! ## The `handle` function (`src/module/reaction.rs` lines 121-193)

`handle` is embedded as a pure function over: the module's reaction list,
the command's name and options, the invoking user id and the bot's
application id, the two random draws (`rand::random::<usize>()` for the
backend pick and for the response pick), the cache store, the outcome the
background fetch would have (`fetchRes`, consumed by `refresh_cache`), and
whether `create_response` succeeds (`sendOk`).  Its output records the
ordered externally visible events (cache lookup, response send, cache
refresh), the returned `Result`, and the resulting store.  Rust's
remainder-by-zero panic is modelled by the `panicked` result. -/

/-- An externally visible event of one `handle` run, in order. -/
inductive Event where
  | lookup (backend endpoint : String)
  | send (message url : String)
  | refresh (backend endpoint : String)
deriving Repr, DecidableEq

/-- The constructor of an event, used to state facts about a trace without
evaluating the message text. -/
inductive EventKind where
  | lookupK
  | sendK
  | refreshK
deriving Repr, DecidableEq

/-- The kind of an event. -/
def Event.kind : Event → EventKind
  | .lookup _ _ => .lookupK
  | .send _ _ => .sendK
  | .refresh _ _ => .refreshK

/-- An error returned by `handle`: either an `anyhow` context message or a
propagated `FetchError` from `refresh_cache`. -/
inductive HandleErr where
  | ctx (msg : String)
  | fetch (e : FetchError)
deriving Repr, DecidableEq

/-- Result of a `handle` run. -/
inductive HandleResult where
  | ok
  | error (e : HandleErr)
  | panicked
deriving Repr, DecidableEq

/-- Full outcome of a `handle` run. -/
structure HandleOut where
  events : List Event
  result : HandleResult
  store : Store
deriving Repr, DecidableEq

/-- Outcome of one of the random list picks inside `handle`. -/
inductive PickResult (α : Type) where
  | ok (a : α)
  | error (e : HandleErr)
  | panicked
deriving Repr, DecidableEq

/-- Lines 125-139: resolve the requested reaction and the option list whose
first entry supplies the target user; returns the reaction and the result
of `options.get(0).and_then(|opt| opt.value.as_user_id())`. -/
def selectReaction (reactions : List Reaction) (cmdName : String)
    (options : List TopOption) : Except HandleErr (Reaction × Option Nat) :=
  if startsWithStr cmdName "reaction" then
    match options.get? 0 with
    | none => .error (.ctx "no subcommand")
    | some subcommand =>
      match subcommand.value with
      | .subCommand opts =>
        match reactions.find? (fun r => r.name == subcommand.name) with
        | none => .error (.ctx "unknown reaction")
        | some reaction =>
          .ok (reaction, (opts.get? 0).bind (fun o => o.value.as_user_id))
      | .leaf _ => .error (.ctx "invalid subcommand")
  else
    match reactions.find? (fun r => r.name == cmdName) with
    | none => .error (.ctx "unknown reaction")
    | some reaction =>
      .ok (reaction, (options.get? 0).bind (fun o => o.value.as_user_id))

/-- Lines 146-148: `reaction.backends.get(rand::random::<usize>() %
reaction.backends.len()).context("no backend")?`; remainder by zero panics
when the list is empty. -/
def pickBackend (r : Reaction) (rb : Nat) : PickResult String :=
  if r.backends.length = 0 then .panicked
  else
    match r.backends.get? (rb % r.backends.length) with
    | none => .error (.ctx "no backend")
    | some bi => .ok bi

/-- One of the response-list picks of lines 159-168:
`l.get(rand::random::<usize>() % l.len()).context(msg)?`. -/
def pickList (l : List String) (rr : Nat) (msg : String) : PickResult String :=
  if l.length = 0 then .panicked
  else
    match l.get? (rr % l.length) with
    | none => .error (.ctx msg)
    | some m => .ok m

/-- Lines 159-168: choose the response template list by the user/target
relationship, then pick a random entry from it. -/
def pickResponse (r : Reaction) (user target applicationId rr : Nat) :
    PickResult String :=
  if user = target then pickList r.self_responses rr "no self response"
  else if target = applicationId then pickList r.bot_responses rr "no bot response"
  else pickList r.default_responses rr "no default response"

/-- Lines 170-172: substitute `{user}` and `{target}` and append the source
footer. -/
def buildMessage (template : String) (user target : Nat) (backend url : String) : String :=
  (strReplace (strReplace template "{user}" ("<@" ++ toString user ++ ">"))
      "{target}" ("<@" ++ toString target ++ ">"))
    ++ "\n-# From: " ++ backend ++ " • [Source](<" ++ url ++ ">)"

/-- `ReactionModule::handle` (lines 121-193). -/
def handle (reactions : List Reaction) (cmdName : String) (options : List TopOption)
    (userId applicationId : Nat) (rb rr : Nat) (store : Store)
    (fetchRes : Except FetchError String) (sendOk : Bool) : HandleOut :=
  match selectReaction reactions cmdName options with
  | .error e => ⟨[], .error e, store⟩
  | .ok (reaction, firstUid) =>
    match pickBackend reaction rb with
    | .panicked => ⟨[], .panicked, store⟩
    | .error e => ⟨[], .error e, store⟩
    | .ok backend_info =>
      match (splitn2 backend_info).2 with
      | none => ⟨[], .error (.ctx "no endpoint"), store⟩
      | some endpoint =>
        match get_cached store (splitn2 backend_info).1 endpoint with
        | none =>
          ⟨[.lookup (splitn2 backend_info).1 endpoint],
           .error (.ctx "no cached gif"), store⟩
        | some image_url =>
          match pickResponse reaction userId (firstUid.getD applicationId)
              applicationId rr with
          | .panicked =>
            ⟨[.lookup (splitn2 backend_info).1 endpoint], .panicked, store⟩
          | .error e =>
            ⟨[.lookup (splitn2 backend_info).1 endpoint], .error e, store⟩
          | .ok template =>
            match (refresh_cache store ((splitn2 backend_info).1, endpoint) fetchRes).2 with
            | .error e =>
              ⟨[.lookup (splitn2 backend_info).1 endpoint,
                .send (buildMessage template userId (firstUid.getD applicationId)
                         (splitn2 backend_info).1 image_url) image_url,
                .refresh (splitn2 backend_info).1 endpoint],
               .error (.fetch e),
               (refresh_cache store ((splitn2 backend_info).1, endpoint) fetchRes).1⟩
            | .ok _ =>
              if sendOk then
                ⟨[.lookup (splitn2 backend_info).1 endpoint,
                  .send (buildMessage template userId (firstUid.getD applicationId)
                           (splitn2 backend_info).1 image_url) image_url,
                  .refresh (splitn2 backend_info).1 endpoint],
                 .ok,
                 (refresh_cache store ((splitn2 backend_info).1, endpoint) fetchRes).1⟩
              else
                ⟨[.lookup (splitn2 backend_info).1 endpoint,
                  .send (buildMessage template userId (firstUid.getD applicationId)
                           (splitn2 backend_info).1 image_url) image_url,
                  .refresh (splitn2 backend_info).1 endpoint],
                 .error (.ctx "failed to send response"),
                 (refresh_cache store ((splitn2 backend_info).1, endpoint) fetchRes).1⟩

/-! ## The `init` function (`src/module/reaction.rs` lines 70-115)

`init` stores the configured reactions, warms the cache, registers the
chunked `reaction` commands and the per-reaction alias commands, and records
the alias names.  We embed the command construction. -/

/-- A registered command option: either a reaction subcommand (which in the
source carries a required `user` sub-option) or the bare required `user`
option of an alias command. -/
inductive CmdOptM where
  | sub (name description : String)
  | userOpt
deriving Repr, DecidableEq

/-- A registered command (the fields of `CreateCommand` the claims are
about). -/
structure CreateCommandM where
  name : String
  description : String
  options : List CmdOptM
deriving Repr, DecidableEq

/-- `slice::chunks(25)`: non-overlapping batches of 25, last batch possibly
shorter; an empty slice yields no batches. -/
def chunks25 {α : Type} : List α → List (List α)
  | [] => []
  | a :: as => ((a :: as).take 25) :: chunks25 ((a :: as).drop 25)
termination_by l => l.length
decreasing_by simp; omega

/-- Line 83: the command name for the (1-based) batch `index`:
`format!("reaction{}", if index > 1 { index } else { "" })`. -/
def commandName (index : Nat) : String :=
  "reaction" ++ (if index > 1 then toString index else "")

/-- Lines 86-96: the command built for one batch of reactions. -/
def chunkCommand (index : Nat) (batch : List Reaction) : CreateCommandM :=
  ⟨commandName index, "React to someone with an animated gif.",
   batch.map (fun r => .sub r.name r.description)⟩

/-- Lines 78-97 with the mutable `index` counter made explicit: one command
per batch, the counter incremented before each use. -/
def chunkCommandsFrom (index : Nat) : List (List Reaction) → List CreateCommandM
  | [] => []
  | batch :: rest => chunkCommand (index + 1) batch :: chunkCommandsFrom (index + 1) rest

/-- Lines 78-97: the chunked top-level `reaction` commands. -/
def chunkCommands (reactions : List Reaction) : List CreateCommandM :=
  chunkCommandsFrom 0 (chunks25 reactions)

/-- Lines 102-109: the extra command registered for a reaction with the
alias flag. -/
def aliasCommand (r : Reaction) : CreateCommandM :=
  ⟨r.name, "[Alias for /reaction " ++ r.name ++ "] " ++ r.description, [.userOpt]⟩

/-- Lines 77-114: the full command list returned by `init` and the alias
names it records (`self.aliases`). -/
def initCommands (reactions : List Reaction) : List CreateCommandM × List String :=
  (chunkCommands reactions
     ++ (reactions.filter (fun r => r.«alias»)).map aliasCommand,
   (reactions.filter (fun r => r.«alias»)).map (fun r => r.name))

/-! ## Concurrent refresh collapsing (spec §4.3/§5)

Modelled from the spec: the per-key "refresh in progress" guard for one
cache key, handling `n` concurrent `refresh_cache` calls for that key.
Each call is a task; task `i`'s outbound fetch, were it performed, returns
`results i`.  A pending task either acquires the free guard and starts the
single outbound fetch, or — when the guard is held — is dropped as
redundant (the spec's drop-redundant policy).  Finishing a fetch releases
the guard and, on success, replaces the cached value. -/

/-- State of one refresh task. -/
inductive TaskState where
  | pending
  | fetching
  | dropped
  | done
deriving Repr, DecidableEq

/-- Modelled from the spec: state of the per-key refresh system — task
states, the per-key in-flight guard, and the cached value for the key. -/
structure RefreshSys where
  tasks : List TaskState
  inFlight : Bool
  cache : Option String
deriving Repr, DecidableEq

/-- Modelled from the spec: one interleaving step of the per-key refresh
system. -/
inductive RefreshStep (results : Nat → Except FetchError String) :
    RefreshSys → RefreshSys → Prop where
  | start (s : RefreshSys) (i : Nat) :
      s.tasks.get? i = some .pending → s.inFlight = false →
      RefreshStep results s ⟨s.tasks.set i .fetching, true, s.cache⟩
  | drop (s : RefreshSys) (i : Nat) :
      s.tasks.get? i = some .pending → s.inFlight = true →
      RefreshStep results s ⟨s.tasks.set i .dropped, s.inFlight, s.cache⟩
  | finishOk (s : RefreshSys) (i : Nat) (url : String) :
      s.tasks.get? i = some .fetching → results i = .ok url →
      RefreshStep results s ⟨s.tasks.set i .done, false, some url⟩
  | finishErr (s : RefreshSys) (i : Nat) (e : FetchError) :
      s.tasks.get? i = some .fetching → results i = .error e →
      RefreshStep results s ⟨s.tasks.set i .done, false, s.cache⟩

/-- Initial state: `n` pending refresh calls, guard free, prior cached
value `cache0`. -/
def initSys (n : Nat) (cache0 : Option String) : RefreshSys :=
  ⟨List.replicate n .pending, false, cache0⟩

/-- States reachable by interleaving the `n` concurrent refresh calls. -/
inductive RefreshReachable (results : Nat → Except FetchError String)
    (n : Nat) (cache0 : Option String) : RefreshSys → Prop where
  | init : RefreshReachable results n cache0 (initSys n cache0)
  | step {s s' : RefreshSys} : RefreshReachable results n cache0 s →
      RefreshStep results s s' → RefreshReachable results n cache0 s'

/-- No task is fetching while the guard is free. -/
def NoFetchIdle (s : RefreshSys) : Prop :=
  s.inFlight = false → ∀ i, s.tasks.get? i ≠ some .fetching

/-- At most one task is fetching. -/
def AtMostOneFetch (s : RefreshSys) : Prop :=
  ∀ i j, s.tasks.get? i = some .fetching → s.tasks.get? j = some .fetching → i = j

/-- The cached value is the prior one or the result of a completed
successful fetch. -/
def CacheConsistent (results : Nat → Except FetchError String)
    (cache0 : Option String) (s : RefreshSys) : Prop :=
  s.cache = cache0 ∨
    ∃ i url, s.tasks.get? i = some .done ∧ results i = .ok url ∧ s.cache = some url

/-! ## Theorems -/

/-! ### Store-level claims (C4, C5, C6) -/

/-- C4: `get_cached` is a pure, non-blocking lookup into the Store: it is a
function of the store alone (no I/O, no suspension in the model), returning
`none` on an empty store, the value written by the latest `put` for its own
key, and being unaffected by `put`s to other keys — so it either returns
the currently cached URL or reports the key as not cached. -/
theorem get_cached_pure_lookup :
    (∀ b e, get_cached ([] : Store) b e = none)
    ∧ (∀ s b e u, get_cached (Store.put s (b, e) u) b e = some u)
    ∧ (∀ (s : Store) (b e b' e' : String) (u : String), (b, e) ≠ (b', e') →
        get_cached (Store.put s (b', e') u) b e = get_cached s b e) := by
  refine ⟨fun _ _ => rfl, fun s b e u => Store.get_put_same s (b, e) u, ?_⟩
  intro s b e b' e' u h
  exact Store.get_put_ne s (b', e') (b, e) u h

/-- Witness for C4 at concrete inputs. -/
theorem get_cached_pure_lookup_witness :
    (("giphy", "hug") : CacheKey) ≠ ("giphy", "slap")
    ∧ get_cached (Store.put [(("giphy", "hug"), "u1")] ("giphy", "slap") "u2")
        "giphy" "hug" = some "u1" := by
  refine ⟨by decide, ?_⟩
  rw [get_cached_pure_lookup.2.2 [(("giphy", "hug"), "u1")] "giphy" "hug" "giphy" "slap" "u2"
        (by decide)]
  rfl

/-- C5: a `refresh_cache` whose fetch fails returns the `FetchError`,
leaves the store — and hence every cached value — exactly unchanged, and
in particular never removes or regresses the entry for its own key. -/
theorem refresh_cache_failure_preserves (s : Store) (k : CacheKey) (e : FetchError) :
    (refresh_cache s k (.error e)).1 = s
    ∧ (refresh_cache s k (.error e)).2 = .error e
    ∧ (∀ b' e', get_cached (refresh_cache s k (.error e)).1 b' e' = get_cached s b' e') :=
  ⟨rfl, rfl, fun _ _ => rfl⟩

/-- The value `build_cache`'s fold gives a key, for an arbitrary initial
store. -/
theorem buildStep_foldl_get (fetch : CacheKey → Except FetchError String)
    (pairs : List CacheKey) (s : Store) (k : CacheKey) :
    Store.get (pairs.foldl (buildStep fetch) s) k =
      (match fetch k with
       | .ok u => if k ∈ pairs then some u else Store.get s k
       | .error _ => Store.get s k) := by
  induction pairs generalizing s with
  | nil =>
    cases h : fetch k <;> simp [h]
  | cons p rest ih =>
    simp only [List.foldl_cons]
    rw [ih]
    by_cases hpk : p = k
    · subst hpk
      cases h : fetch p with
      | error e => simp [h, buildStep]
      | ok u =>
        by_cases hmem : p ∈ rest
        · simp [h, hmem]
        · simp [h, hmem, buildStep, Store.get_put_same]
    · have hget : Store.get (buildStep fetch s p) k = Store.get s k := by
        unfold buildStep
        cases h : fetch p with
        | error e => rfl
        | ok u => exact Store.get_put_ne s p k u (fun hh => hpk hh.symm)
      cases h : fetch k with
      | error e => simp [h, hget]
      | ok u =>
        by_cases hmem : k ∈ rest
        · simp [h, hmem]
        · have : ¬ k ∈ p :: rest := by
            intro hc
            rcases List.mem_cons.mp hc with hc | hc
            · exact hpk hc.symm
            · exact hmem hc
          simp [h, hmem, this, hget]

/-- C6: after `build_cache` completes, the entry for a pair is exactly the
fetched URL when that pair was declared and its fetch succeeded, and absent
otherwise — in particular the outcome for each pair depends only on its own
fetch result, so one pair's failure never prevents another pair from being
stored. -/
theorem build_cache_best_effort (pairs : List CacheKey)
    (fetch : CacheKey → Except FetchError String) (b e : String) :
    get_cached (build_cache pairs fetch) b e =
      (match fetch (b, e) with
       | .ok u => if (b, e) ∈ pairs then some u else none
       | .error _ => none) := by
  unfold build_cache get_cached
  rw [buildStep_foldl_get fetch pairs [] (b, e)]
  cases h : fetch (b, e) <;> simp [Store.get]

/-! ### Handle-level claims (C1, C2, C3) -/

/-- C1: a `handle` invocation performs at most one cache lookup (no retry
within the request), and whenever its lookup hits a key that `get_cached`
reports uncached, `handle` returns the "no cached gif" error, sends no
response at all (in particular none with an empty or null URL), and leaves
the store untouched. -/
theorem handle_cache_miss_fails_gracefully (R : List Reaction) (c : String)
    (o : List TopOption) (u a rb rr : Nat) (st : Store)
    (f : Except FetchError String) (sd : Bool) :
    ((handle R c o u a rb rr st f sd).events.countP
        (fun ev => ev.kind == EventKind.lookupK)) ≤ 1
    ∧ (∀ b e, Event.lookup b e ∈ (handle R c o u a rb rr st f sd).events →
        get_cached st b e = none →
        (handle R c o u a rb rr st f sd).result = .error (.ctx "no cached gif")
        ∧ (∀ m url, Event.send m url ∉ (handle R c o u a rb rr st f sd).events)
        ∧ (handle R c o u a rb rr st f sd).store = st) := by
  unfold handle
  split
  · simp
  · split
    · simp
    · simp
    · split
      · simp
      · split
        · refine ⟨by simp [Event.kind], ?_⟩
          intro b e _ _
          exact ⟨rfl, by simp, rfl⟩
        · rename_i url heq
          split <;> try split <;> try split
          all_goals
            refine ⟨by simp [Event.kind], ?_⟩
            intro b e hmem hnone
            simp at hmem
            rw [hmem.1, hmem.2] at hnone
            rw [heq] at hnone
            exact absurd hnone (by simp)

/-- Witness for C1: a concrete invocation whose lookup misses the empty
store. -/
theorem handle_cache_miss_fails_gracefully_witness :
    Event.lookup "giphy" "hug" ∈
      (handle [⟨"hug", "d", false, ["giphy/hug"], ["dr"], ["br"], ["sr"]⟩]
        "hug" [] 1 2 0 0 [] (.ok "x") true).events
    ∧ get_cached [] "giphy" "hug" = none
    ∧ ((handle [⟨"hug", "d", false, ["giphy/hug"], ["dr"], ["br"], ["sr"]⟩]
          "hug" [] 1 2 0 0 [] (.ok "x") true).result = .error (.ctx "no cached gif")
        ∧ (∀ m url, Event.send m url ∉
            (handle [⟨"hug", "d", false, ["giphy/hug"], ["dr"], ["br"], ["sr"]⟩]
              "hug" [] 1 2 0 0 [] (.ok "x") true).events)
        ∧ (handle [⟨"hug", "d", false, ["giphy/hug"], ["dr"], ["br"], ["sr"]⟩]
            "hug" [] 1 2 0 0 [] (.ok "x") true).store = []) :=
  ⟨by decide, rfl,
   (handle_cache_miss_fails_gracefully
      [⟨"hug", "d", false, ["giphy/hug"], ["dr"], ["br"], ["sr"]⟩]
      "hug" [] 1 2 0 0 [] (.ok "x") true).2
     "giphy" "hug" (by decide) rfl⟩

/-- C2: whenever a `handle` invocation reaches `refresh_cache` for a key,
its full event trace is exactly lookup, then the (completed) response send,
then the refresh — for that same key; the refresh is never invoked before
the response is sent. -/
theorem handle_lookup_send_refresh_order (R : List Reaction) (c : String)
    (o : List TopOption) (u a rb rr : Nat) (st : Store)
    (f : Except FetchError String) (sd : Bool) :
    ∀ b e, Event.refresh b e ∈ (handle R c o u a rb rr st f sd).events →
      ∃ m url, (handle R c o u a rb rr st f sd).events
        = [.lookup b e, .send m url, .refresh b e] := by
  unfold handle
  split
  · simp
  · split
    · simp
    · simp
    · split
      · simp
      · split
        · intro b e hmem
          simp at hmem
        · split
          · intro b e hmem
            simp at hmem
          · intro b e hmem
            simp at hmem
          · split <;> try split
            all_goals
              intro b e hmem
              simp at hmem
              rw [hmem.1, hmem.2]
              exact ⟨_, _, rfl⟩

/-- Witness for C2: a concrete invocation that reaches the refresh. -/
theorem handle_lookup_send_refresh_order_witness :
    Event.refresh "giphy" "hug" ∈
      (handle [⟨"hug", "d", false, ["giphy/hug"], ["dr"], ["br"], ["sr"]⟩]
        "hug" [] 1 2 0 0 [(("giphy", "hug"), "url")] (.ok "x") true).events
    ∧ ∃ m url, (handle [⟨"hug", "d", false, ["giphy/hug"], ["dr"], ["br"], ["sr"]⟩]
        "hug" [] 1 2 0 0 [(("giphy", "hug"), "url")] (.ok "x") true).events
        = [.lookup "giphy" "hug", .send m url, .refresh "giphy" "hug"] :=
  ⟨by decide,
   handle_lookup_send_refresh_order
     [⟨"hug", "d", false, ["giphy/hug"], ["dr"], ["br"], ["sr"]⟩]
     "hug" [] 1 2 0 0 [(("giphy", "hug"), "url")] (.ok "x") true
     "giphy" "hug" (by decide)⟩

/-- C3 counterexample: a concrete invocation in which the response send
succeeds (`sendOk = true`, the send event is in the trace) and the
refresh's fetch fails; `handle` returns the `FetchError` — so a
`FetchError` from `refresh_cache` does cause the invocation's `handle` to
return an error even though the response was sent successfully, refuting
the claim as stated. -/
theorem handle_refresh_error_propagates_cex :
    (handle [⟨"hug", "d", false, ["giphy/hug"], ["dr"], ["br"], ["sr"]⟩]
        "hug" [] 1 2 0 0 [(("giphy", "hug"), "url")]
        (.error .networkFailure) true).result = .error (.fetch .networkFailure)
    ∧ ((handle [⟨"hug", "d", false, ["giphy/hug"], ["dr"], ["br"], ["sr"]⟩]
        "hug" [] 1 2 0 0 [(("giphy", "hug"), "url")]
        (.error .networkFailure) true).events.map Event.kind)
      = [.lookupK, .sendK, .refreshK] :=
  ⟨by decide, by decide⟩

/-- C3 amended: `refresh_cache` is reached only after the response send has
completed, but `handle` does await it and propagates its `FetchError`: when
the refresh's fetch fails, `handle` returns that error — even when the
response itself was sent successfully — while the store is left
unchanged. -/
theorem handle_refresh_error_propagates (R : List Reaction) (c : String)
    (o : List TopOption) (u a rb rr : Nat) (st : Store) (fe : FetchError)
    (sd : Bool) :
    ∀ b e, Event.refresh b e ∈
        (handle R c o u a rb rr st (.error fe) sd).events →
      (handle R c o u a rb rr st (.error fe) sd).result = .error (.fetch fe)
      ∧ (handle R c o u a rb rr st (.error fe) sd).store = st
      ∧ ∃ m url, (handle R c o u a rb rr st (.error fe) sd).events
          = [.lookup b e, .send m url, .refresh b e] := by
  unfold handle
  split
  · simp
  · split
    · simp
    · simp
    · split
      · simp
      · split
        · intro b e hmem
          simp at hmem
        · split
          · intro b e hmem
            simp at hmem
          · intro b e hmem
            simp at hmem
          · split
            · rename_i e' heq
              intro b en hmem
              simp [refresh_cache] at heq
              subst heq
              refine ⟨rfl, rfl, ?_⟩
              simp at hmem
              rw [hmem.1, hmem.2]
              exact ⟨_, _, rfl⟩
            · rename_i heq
              simp [refresh_cache] at heq

/-- Witness for C3's amended theorem: a concrete invocation whose refresh
fetch fails after a successful send. -/
theorem handle_refresh_error_propagates_witness :
    Event.refresh "giphy" "hug" ∈
      (handle [⟨"hug", "d", false, ["giphy/hug"], ["dr"], ["br"], ["sr"]⟩]
        "hug" [] 1 2 0 0 [(("giphy", "hug"), "url")]
        (.error .unknownBackend) true).events
    ∧ ((handle [⟨"hug", "d", false, ["giphy/hug"], ["dr"], ["br"], ["sr"]⟩]
          "hug" [] 1 2 0 0 [(("giphy", "hug"), "url")]
          (.error .unknownBackend) true).result = .error (.fetch .unknownBackend)
        ∧ (handle [⟨"hug", "d", false, ["giphy/hug"], ["dr"], ["br"], ["sr"]⟩]
            "hug" [] 1 2 0 0 [(("giphy", "hug"), "url")]
            (.error .unknownBackend) true).store = [(("giphy", "hug"), "url")]
        ∧ ∃ m url, (handle [⟨"hug", "d", false, ["giphy/hug"], ["dr"], ["br"], ["sr"]⟩]
            "hug" [] 1 2 0 0 [(("giphy", "hug"), "url")]
            (.error .unknownBackend) true).events
            = [.lookup "giphy" "hug", .send m url, .refresh "giphy" "hug"]) :=
  ⟨by decide,
   handle_refresh_error_propagates
     [⟨"hug", "d", false, ["giphy/hug"], ["dr"], ["br"], ["sr"]⟩]
     "hug" [] 1 2 0 0 [(("giphy", "hug"), "url")] .unknownBackend true
     "giphy" "hug" (by decide)⟩

/-! ### Random-pick lemmas and C8 -/

/-- The only errors `selectReaction` can produce. -/
theorem selectReaction_error_cases (R : List Reaction) (c : String)
    (o : List TopOption) (e : HandleErr) (h : selectReaction R c o = .error e) :
    e = .ctx "no subcommand" ∨ e = .ctx "invalid subcommand"
      ∨ e = .ctx "unknown reaction" := by
  unfold selectReaction at h
  split at h
  · split at h
    · simp at h
      exact Or.inl h.symm
    · split at h
      · split at h
        · simp at h
          exact Or.inr (Or.inr h.symm)
        · simp at h
      · simp at h
        exact Or.inr (Or.inl h.symm)
  · split at h
    · simp at h
      exact Or.inr (Or.inr h.symm)
    · simp at h

/-- An empty backends list makes `pickBackend` panic (remainder by zero). -/
theorem pickBackend_empty (r : Reaction) (rb : Nat) (h : r.backends = []) :
    pickBackend r rb = .panicked := by
  simp [pickBackend, h]

/-- A non-empty backends list gives an in-range index and a successful
access. -/
theorem pickBackend_nonempty (r : Reaction) (rb : Nat) (h : r.backends ≠ []) :
    rb % r.backends.length < r.backends.length
    ∧ ∃ bi, r.backends.get? (rb % r.backends.length) = some bi
        ∧ pickBackend r rb = .ok bi := by
  have hne : ¬ r.backends.length = 0 := by
    intro h0
    exact h (List.length_eq_zero.mp h0)
  have hlt : rb % r.backends.length < r.backends.length :=
    Nat.mod_lt _ (Nat.pos_of_ne_zero hne)
  cases hcase : r.backends.get? (rb % r.backends.length) with
  | none => exact absurd (List.get?_eq_none.mp hcase) (by omega)
  | some bi =>
    refine ⟨hlt, bi, rfl, ?_⟩
    unfold pickBackend
    rw [if_neg hne, hcase]

/-- `pickBackend` never takes the "no backend" error branch. -/
theorem pickBackend_ne_error (r : Reaction) (rb : Nat) (e : HandleErr) :
    pickBackend r rb ≠ .error e := by
  by_cases h : r.backends = []
  · simp [pickBackend_empty r rb h]
  · obtain ⟨_, bi, _, hpb⟩ := pickBackend_nonempty r rb h
    simp [hpb]

/-- An empty response list makes `pickList` panic (remainder by zero). -/
theorem pickList_empty (l : List String) (rr : Nat) (msg : String) (h : l = []) :
    pickList l rr msg = .panicked := by
  simp [pickList, h]

/-- A non-empty response list gives an in-range index and a successful
access. -/
theorem pickList_nonempty (l : List String) (rr : Nat) (msg : String) (h : l ≠ []) :
    rr % l.length < l.length
    ∧ ∃ m, l.get? (rr % l.length) = some m ∧ pickList l rr msg = .ok m := by
  have hne : ¬ l.length = 0 := by
    intro h0
    exact h (List.length_eq_zero.mp h0)
  have hlt : rr % l.length < l.length := Nat.mod_lt _ (Nat.pos_of_ne_zero hne)
  cases hcase : l.get? (rr % l.length) with
  | none => exact absurd (List.get?_eq_none.mp hcase) (by omega)
  | some m =>
    refine ⟨hlt, m, rfl, ?_⟩
    unfold pickList
    rw [if_neg hne, hcase]

/-- `pickList` never takes its error branch. -/
theorem pickList_ne_error (l : List String) (rr : Nat) (msg : String) (e : HandleErr) :
    pickList l rr msg ≠ .error e := by
  by_cases h : l = []
  · simp [pickList_empty l rr msg h]
  · obtain ⟨_, m, _, hpl⟩ := pickList_nonempty l rr msg h
    simp [hpl]

/-- `pickList` panics exactly on the empty list. -/
theorem pickList_panicked_iff (l : List String) (rr : Nat) (msg : String) :
    pickList l rr msg = .panicked ↔ l = [] := by
  constructor
  · intro h
    by_contra hne
    obtain ⟨_, m, _, hok⟩ := pickList_nonempty l rr msg hne
    rw [hok] at h
    exact absurd h (by simp)
  · exact pickList_empty l rr msg

/-- `pickResponse` never takes one of the "no ... response" error
branches. -/
theorem pickResponse_ne_error (r : Reaction) (u t a rr : Nat) (e : HandleErr) :
    pickResponse r u t a rr ≠ .error e := by
  unfold pickResponse
  split
  · exact pickList_ne_error _ _ _ _
  · split
    · exact pickList_ne_error _ _ _ _
    · exact pickList_ne_error _ _ _ _

/-- `pickResponse` panics exactly when the applicable response list is
empty. -/
theorem pickResponse_panicked_iff (r : Reaction) (u t a rr : Nat) :
    pickResponse r u t a rr = .panicked ↔
      (if u = t then r.self_responses
       else if t = a then r.bot_responses
       else r.default_responses) = [] := by
  unfold pickResponse
  split <;> try split
  all_goals exact pickList_panicked_iff _ _ _

/-- C8: the random selections are `rand % len` list accesses, so (i) the
"no backend" / "no self response" / "no bot response" / "no default
response" error branches of `handle` are unreachable; (ii) a matched
reaction with an empty backends list makes `handle` panic on remainder by
zero before any event; (iii) a non-empty backends list always yields an
in-range index and a successful access; (iv) the response pick panics
exactly when the applicable response list is empty and (v) succeeds with
an in-range index when it is not; and (vi) when the invocation reaches a
response pick whose applicable list is empty, `handle` panics. -/
theorem handle_modulo_zero_panics (R : List Reaction) (c : String)
    (o : List TopOption) (u a rb rr : Nat) (st : Store)
    (f : Except FetchError String) (sd : Bool) :
    ((handle R c o u a rb rr st f sd).result ≠ .error (.ctx "no backend")
      ∧ (handle R c o u a rb rr st f sd).result ≠ .error (.ctx "no self response")
      ∧ (handle R c o u a rb rr st f sd).result ≠ .error (.ctx "no bot response")
      ∧ (handle R c o u a rb rr st f sd).result ≠ .error (.ctx "no default response"))
    ∧ (∀ re fu, selectReaction R c o = .ok (re, fu) → re.backends = [] →
        handle R c o u a rb rr st f sd = ⟨[], .panicked, st⟩)
    ∧ (∀ re : Reaction, re.backends ≠ [] →
        rb % re.backends.length < re.backends.length
        ∧ ∃ bi, re.backends.get? (rb % re.backends.length) = some bi
            ∧ pickBackend re rb = .ok bi)
    ∧ (∀ (re : Reaction) (t : Nat), pickResponse re u t a rr = .panicked ↔
        (if u = t then re.self_responses
         else if t = a then re.bot_responses
         else re.default_responses) = [])
    ∧ (∀ (l : List String) (msg : String), l ≠ [] →
        rr % l.length < l.length
        ∧ ∃ m, l.get? (rr % l.length) = some m ∧ pickList l rr msg = .ok m)
    ∧ (∀ re fu bi en url, selectReaction R c o = .ok (re, fu) →
        pickBackend re rb = .ok bi → (splitn2 bi).2 = some en →
        get_cached st (splitn2 bi).1 en = some url →
        pickResponse re u (fu.getD a) a rr = .panicked →
        (handle R c o u a rb rr st f sd).result = .panicked) := by
  refine ⟨?_, ?_, ?_, ?_, ?_, ?_⟩
  · unfold handle
    split
    · rename_i e hsel
      rcases selectReaction_error_cases R c o e hsel with h | h | h <;> subst h <;>
        exact ⟨by simp, by simp, by simp, by simp⟩
    · split
      · exact ⟨by simp, by simp, by simp, by simp⟩
      · rename_i e heq
        exact absurd heq (pickBackend_ne_error _ _ _)
      · split
        · exact ⟨by simp, by simp, by simp, by simp⟩
        · split
          · exact ⟨by simp, by simp, by simp, by simp⟩
          · split
            · exact ⟨by simp, by simp, by simp, by simp⟩
            · rename_i e heq
              exact absurd heq (pickResponse_ne_error _ _ _ _ _ _)
            · split
              · exact ⟨by simp, by simp, by simp, by simp⟩
              · split
                · exact ⟨by simp, by simp, by simp, by simp⟩
                · exact ⟨by simp, by simp, by simp, by simp⟩
  · intro re fu hsel hempty
    simp only [handle, hsel, pickBackend_empty re rb hempty]
  · exact fun re h => pickBackend_nonempty re rb h
  · exact fun re t => pickResponse_panicked_iff re u t a rr
  · exact fun l msg h => pickList_nonempty l rr msg h
  · intro re fu bi en url hsel hpb hsp hgc hpr
    simp only [handle, hsel, hpb, hsp, hgc, hpr]

/-- Witness for C8: a reaction with an empty backends list panics, and the
non-empty picks succeed, at concrete inputs. -/
theorem handle_modulo_zero_panics_witness :
    selectReaction [⟨"hug", "d", false, [], ["dr"], ["br"], ["sr"]⟩] "hug" []
      = .ok (⟨"hug", "d", false, [], ["dr"], ["br"], ["sr"]⟩, none)
    ∧ (⟨"hug", "d", false, [], ["dr"], ["br"], ["sr"]⟩ : Reaction).backends = []
    ∧ handle [⟨"hug", "d", false, [], ["dr"], ["br"], ["sr"]⟩] "hug" []
        1 2 0 0 [] (.ok "x") true = ⟨[], .panicked, []⟩
    ∧ (["a", "b", "c"] : List String) ≠ []
    ∧ (0 % (["a", "b", "c"] : List String).length < (["a", "b", "c"] : List String).length
        ∧ ∃ m, (["a", "b", "c"] : List String).get? (0 % (["a", "b", "c"] : List String).length)
            = some m ∧ pickList ["a", "b", "c"] 0 "no self response" = .ok m) :=
  ⟨by decide, rfl,
   (handle_modulo_zero_panics [⟨"hug", "d", false, [], ["dr"], ["br"], ["sr"]⟩]
      "hug" [] 1 2 0 0 [] (.ok "x") true).2.1
     ⟨"hug", "d", false, [], ["dr"], ["br"], ["sr"]⟩ none (by decide) rfl,
   by decide,
   (handle_modulo_zero_panics [⟨"hug", "d", false, [], ["dr"], ["br"], ["sr"]⟩]
      "hug" [] 1 2 0 0 [] (.ok "x") true).2.2.2.2.1
     ["a", "b", "c"] "no self response" (by decide)⟩

/-! ### C10: missing user option defaults the target to the bot -/

/-- C10: when the resolved first option carries no user id (`selectReaction`
returns `none` for it — the option is missing or not a user value), the
target defaults to the bot's application id: the invocation does not fail
for lack of a target, and — when the invoking user differs from the
application id — the full response path runs with the message drawn from
`bot_responses`, with the application id as the target in the message. -/
theorem handle_default_target_bot_response (R : List Reaction) (c : String)
    (o : List TopOption) (u a rb rr : Nat) (st : Store)
    (f : Except FetchError String) (sd : Bool) (re : Reaction) (bi en url : String)
    (hsel : selectReaction R c o = .ok (re, none))
    (hpb : pickBackend re rb = .ok bi)
    (hsp : (splitn2 bi).2 = some en)
    (hgc : get_cached st (splitn2 bi).1 en = some url)
    (hua : u ≠ a)
    (hbr : re.bot_responses ≠ []) :
    ∃ m, re.bot_responses.get? (rr % re.bot_responses.length) = some m
      ∧ (handle R c o u a rb rr st f sd).events
          = [.lookup (splitn2 bi).1 en,
             .send (buildMessage m u a (splitn2 bi).1 url) url,
             .refresh (splitn2 bi).1 en] := by
  obtain ⟨hlt, m, hm, hpl⟩ := pickList_nonempty re.bot_responses rr "no bot response" hbr
  have hpr : pickResponse re u a a rr = .ok m := by
    unfold pickResponse
    rw [if_neg hua, if_pos rfl]
    exact hpl
  refine ⟨m, hm, ?_⟩
  simp only [handle, hsel, hpb, hsp, hgc, Option.getD_none, hpr]
  split
  · rfl
  · split
    · rfl
    · rfl

/-- Witness for C10 at a concrete invocation with no options. -/
theorem handle_default_target_bot_response_witness :
    selectReaction [⟨"hug", "d", false, ["giphy/hug"], ["dr"], ["br"], ["sr"]⟩] "hug" []
      = .ok (⟨"hug", "d", false, ["giphy/hug"], ["dr"], ["br"], ["sr"]⟩, none)
    ∧ (1 : Nat) ≠ 2
    ∧ ∃ m, (["br"] : List String).get? (0 % (["br"] : List String).length) = some m
        ∧ (handle [⟨"hug", "d", false, ["giphy/hug"], ["dr"], ["br"], ["sr"]⟩]
            "hug" [] 1 2 0 0 [(("giphy", "hug"), "url")] (.ok "x") true).events
          = [.lookup (splitn2 "giphy/hug").1 "hug",
             .send (buildMessage m 1 2 (splitn2 "giphy/hug").1 "url") "url",
             .refresh (splitn2 "giphy/hug").1 "hug"] :=
  ⟨by decide, by decide,
   handle_default_target_bot_response
     [⟨"hug", "d", false, ["giphy/hug"], ["dr"], ["br"], ["sr"]⟩] "hug" []
     1 2 0 0 [(("giphy", "hug"), "url")] (.ok "x") true
     ⟨"hug", "d", false, ["giphy/hug"], ["dr"], ["br"], ["sr"]⟩ "giphy/hug" "hug" "url"
     (by decide) (by decide) (by decide) (by decide) (by decide) (by decide)⟩

/-! ### C7: concurrent refresh collapsing -/

/-- Any entry of the all-pending initial task list is pending. -/
theorem get_replicate_pending {n i : Nat} {t : TaskState}
    (h : (List.replicate n TaskState.pending).get? i = some t) : t = .pending :=
  List.eq_of_mem_replicate (List.get?_mem h)

/-- The invariant preserved by every step of the per-key refresh system. -/
def RefreshInv (results : Nat → Except FetchError String)
    (cache0 : Option String) (s : RefreshSys) : Prop :=
  NoFetchIdle s ∧ AtMostOneFetch s ∧ CacheConsistent results cache0 s

theorem refreshInv_init (results : Nat → Except FetchError String)
    (n : Nat) (cache0 : Option String) :
    RefreshInv results cache0 (initSys n cache0) := by
  refine ⟨?_, ?_, Or.inl rfl⟩
  · intro _ i hc
    exact absurd (get_replicate_pending hc) (by decide)
  · intro i j hi _
    exact absurd (get_replicate_pending hi) (by decide)

theorem refreshInv_step {results : Nat → Except FetchError String}
    {cache0 : Option String} {s s' : RefreshSys}
    (hst : RefreshStep results s s') (hinv : RefreshInv results cache0 s) :
    RefreshInv results cache0 s' := by
  obtain ⟨hidle, hone, hcons⟩ := hinv
  cases hst with
  | start i hp hif =>
    refine ⟨?_, ?_, ?_⟩
    · intro h
      exact absurd h (by simp)
    · intro j k hj hk
      have hj' : j = i := by
        by_contra hji
        rw [List.get?_set_ne _ _ (fun hh => hji hh.symm)] at hj
        exact hidle hif j hj
      have hk' : k = i := by
        by_contra hki
        rw [List.get?_set_ne _ _ (fun hh => hki hh.symm)] at hk
        exact hidle hif k hk
      rw [hj', hk']
    · rcases hcons with hc | ⟨j, url, hdone, hres, hc⟩
      · exact Or.inl hc
      · have hji : i ≠ j := by
          intro hh
          rw [← hh] at hdone
          rw [hp] at hdone
          exact absurd hdone (by simp)
        refine Or.inr ⟨j, url, ?_, hres, hc⟩
        rw [List.get?_set_ne _ _ hji]
        exact hdone
  | drop i hp hif =>
    refine ⟨?_, ?_, ?_⟩
    · intro h
      rw [hif] at h
      exact absurd h (by decide)
    · intro j k hj hk
      have hji : j ≠ i := by
        intro hh
        subst hh
        obtain ⟨hlen, _⟩ := List.get?_eq_some.mp hp
        rw [List.get?_set_eq_of_lt _ hlen] at hj
        exact absurd hj (by simp)
      have hki : k ≠ i := by
        intro hh
        subst hh
        obtain ⟨hlen, _⟩ := List.get?_eq_some.mp hp
        rw [List.get?_set_eq_of_lt _ hlen] at hk
        exact absurd hk (by simp)
      rw [List.get?_set_ne _ _ (fun hh => hji hh.symm)] at hj
      rw [List.get?_set_ne _ _ (fun hh => hki hh.symm)] at hk
      exact hone j k hj hk
    · rcases hcons with hc | ⟨j, url, hdone, hres, hc⟩
      · exact Or.inl hc
      · have hji : i ≠ j := by
          intro hh
          rw [← hh] at hdone
          rw [hp] at hdone
          exact absurd hdone (by simp)
        refine Or.inr ⟨j, url, ?_, hres, hc⟩
        rw [List.get?_set_ne _ _ hji]
        exact hdone
  | finishOk i url hf hres =>
    have hno : ∀ j, (s.tasks.set i TaskState.done).get? j ≠ some .fetching := by
      intro j hj
      by_cases hji : j = i
      · subst hji
        obtain ⟨hlen, _⟩ := List.get?_eq_some.mp hf
        rw [List.get?_set_eq_of_lt _ hlen] at hj
        exact absurd hj (by simp)
      · rw [List.get?_set_ne _ _ (fun hh => hji hh.symm)] at hj
        exact hji (hone j i hj hf)
    refine ⟨fun _ j => hno j, fun j k hj _ => absurd hj (hno j), ?_⟩
    obtain ⟨hlen, _⟩ := List.get?_eq_some.mp hf
    exact Or.inr ⟨i, url, List.get?_set_eq_of_lt _ hlen, hres, rfl⟩
  | finishErr i e hf hres =>
    have hno : ∀ j, (s.tasks.set i TaskState.done).get? j ≠ some .fetching := by
      intro j hj
      by_cases hji : j = i
      · subst hji
        obtain ⟨hlen, _⟩ := List.get?_eq_some.mp hf
        rw [List.get?_set_eq_of_lt _ hlen] at hj
        exact absurd hj (by simp)
      · rw [List.get?_set_ne _ _ (fun hh => hji hh.symm)] at hj
        exact hji (hone j i hj hf)
    refine ⟨fun _ j => hno j, fun j k hj _ => absurd hj (hno j), ?_⟩
    rcases hcons with hc | ⟨j, url, hdone, hres', hc⟩
    · exact Or.inl hc
    · by_cases hji : i = j
      · subst hji
        rw [hf] at hdone
        exact absurd hdone (by simp)
      · refine Or.inr ⟨j, url, ?_, hres', hc⟩
        rw [List.get?_set_ne _ _ hji]
        exact hdone

/-- The invariant holds in every reachable state. -/
theorem refreshInv_reachable {results : Nat → Except FetchError String}
    {n : Nat} {cache0 : Option String} {s : RefreshSys}
    (h : RefreshReachable results n cache0 s) : RefreshInv results cache0 s := by
  induction h with
  | init => exact refreshInv_init results n cache0
  | step _ hstep ih => exact refreshInv_step hstep ih

/-- C7: in the per-key refresh system (modelled from the spec's per-key
in-flight guard with the drop-redundant policy), every state reachable
under `n` concurrent `refresh_cache` calls for the same key has at most one
outbound fetch in flight, and its cached value is either the prior one or
the result of a completed successful fetch of one of the calls. -/
theorem refresh_collapse_invariant (results : Nat → Except FetchError String)
    (n : Nat) (cache0 : Option String) (s : RefreshSys)
    (h : RefreshReachable results n cache0 s) :
    AtMostOneFetch s ∧ CacheConsistent results cache0 s :=
  ⟨(refreshInv_reachable h).2.1, (refreshInv_reachable h).2.2⟩

/-- Witness for C7: two concurrent refreshes; the first acquires the guard
and fetches, the second is dropped as redundant, the first completes
successfully. -/
theorem refresh_collapse_invariant_witness :
    RefreshReachable (fun i => if i = 0 then .ok "u" else .error .networkFailure) 2 none
      ⟨[.done, .dropped], false, some "u"⟩
    ∧ (AtMostOneFetch ⟨[.done, .dropped], false, some "u"⟩
        ∧ CacheConsistent (fun i => if i = 0 then .ok "u" else .error .networkFailure)
            none ⟨[.done, .dropped], false, some "u"⟩) := by
  have h1 : RefreshReachable (fun i => if i = 0 then .ok "u" else .error .networkFailure)
      2 none (initSys 2 none) := .init
  have h2 := RefreshReachable.step h1 (RefreshStep.start _ 0 rfl rfl)
  have h3 := RefreshReachable.step h2 (RefreshStep.drop _ 1 rfl rfl)
  have h4 := RefreshReachable.step h3 (RefreshStep.finishOk _ 0 "u" rfl rfl)
  have h5 : RefreshReachable (fun i => if i = 0 then .ok "u" else .error .networkFailure)
      2 none ⟨[.done, .dropped], false, some "u"⟩ := h4
  exact ⟨h5, refresh_collapse_invariant
    (fun i => if i = 0 then .ok "u" else .error .networkFailure) 2 none
    ⟨[.done, .dropped], false, some "u"⟩ h5⟩

/-! ### C9: command registration in `init` -/

/-- `chunks25` of `n` elements yields exactly `ceil(n/25)` batches. -/
theorem chunks25_length {α : Type} (l : List α) :
    (chunks25 l).length = (l.length + 24) / 25 := by
  induction l using chunks25.induct with
  | case1 => simp [chunks25]
  | case2 a as ih =>
    rw [chunks25]
    simp only [List.length_cons, List.length_drop] at ih ⊢
    omega

/-- Flattening the batches gives back the original list. -/
theorem chunks25_flatten {α : Type} (l : List α) :
    (chunks25 l).flatten = l := by
  induction l using chunks25.induct with
  | case1 => simp [chunks25]
  | case2 a as ih =>
    rw [chunks25]
    simp only [List.flatten_cons, ih]
    exact List.take_append_drop 25 (a :: as)

/-- Every batch holds at most 25 elements. -/
theorem chunks25_batch_le {α : Type} (l : List α) (c : List α) (h : c ∈ chunks25 l) :
    c.length ≤ 25 := by
  induction l using chunks25.induct with
  | case1 => simp [chunks25] at h
  | case2 a as ih =>
    rw [chunks25] at h
    rcases List.mem_cons.mp h with hc | hc
    · subst hc
      simp [List.length_take]
    · exact ih hc

/-- One command per batch. -/
theorem chunkCommandsFrom_length (L : List (List Reaction)) (i : Nat) :
    (chunkCommandsFrom i L).length = L.length := by
  induction L generalizing i with
  | nil => rfl
  | cons b rest ih =>
    simp [chunkCommandsFrom, ih]

/-- The `k`-th chunk command is built from the `k`-th batch with the
1-based counter value `i + k + 1`. -/
theorem chunkCommandsFrom_get? (L : List (List Reaction)) (i k : Nat) :
    (chunkCommandsFrom i L).get? k
      = (L.get? k).map (fun batch => chunkCommand (i + k + 1) batch) := by
  induction L generalizing i k with
  | nil => simp [chunkCommandsFrom]
  | cons b rest ih =>
    cases k with
    | zero => simp [chunkCommandsFrom]
    | succ k' =>
      simp only [chunkCommandsFrom, List.get?_cons_succ]
      rw [ih (i + 1) k']
      have : i + 1 + k' + 1 = i + (k' + 1) + 1 := by omega
      rw [this]

/-- The chunk commands\' options, flattened, are one subcommand option per
reaction, in order. -/
theorem chunkCommandsFrom_options (L : List (List Reaction)) (i : Nat) :
    ((chunkCommandsFrom i L).map (fun c => c.options)).flatten
      = L.flatten.map (fun r => CmdOptM.sub r.name r.description) := by
  induction L generalizing i with
  | nil => rfl
  | cons b rest ih =>
    simp [chunkCommandsFrom, chunkCommand, ih]

/-- C9: `init` registers exactly `ceil(n/25)` chunked top-level commands —
the `k`-th (1-based) named by `commandName k`, which is `"reaction"` for
`k = 1` and `"reaction" ++ k` for `k > 1` — each holding at most 25
subcommand options, jointly one option per reaction in configuration order;
after them come exactly the alias commands, one per alias-flagged reaction
and named like it, and the recorded alias list is exactly those names. -/
theorem init_command_registration (reactions : List Reaction) :
    ((chunkCommands reactions).length = (reactions.length + 24) / 25)
    ∧ (∀ k c, (chunkCommands reactions).get? k = some c →
        c.name = commandName (k + 1) ∧ c.options.length ≤ 25)
    ∧ commandName 1 = "reaction"
    ∧ (∀ k, 1 < k → commandName k = "reaction" ++ toString k)
    ∧ (((chunkCommands reactions).map (fun c => c.options)).flatten
        = reactions.map (fun r => CmdOptM.sub r.name r.description))
    ∧ ((initCommands reactions).1.length
        = (reactions.length + 24) / 25
          + (reactions.filter (fun r => r.«alias»)).length)
    ∧ ((initCommands reactions).1.drop (chunkCommands reactions).length
        = (reactions.filter (fun r => r.«alias»)).map aliasCommand)
    ∧ (∀ r : Reaction, (aliasCommand r).name = r.name)
    ∧ ((initCommands reactions).2
        = (reactions.filter (fun r => r.«alias»)).map (fun r => r.name)) := by
  have hlen : (chunkCommands reactions).length = (reactions.length + 24) / 25 := by
    rw [chunkCommands, chunkCommandsFrom_length, chunks25_length]
  refine ⟨hlen, ?_, by decide, ?_, ?_, ?_, ?_, fun r => rfl, rfl⟩
  · intro k c hc
    rw [chunkCommands, chunkCommandsFrom_get? (chunks25 reactions) 0 k] at hc
    cases hb : (chunks25 reactions).get? k with
    | none => rw [hb] at hc; exact absurd hc (by simp)
    | some batch =>
      rw [hb] at hc
      simp only [Option.map_some', Option.some.injEq] at hc
      have hname : c.name = commandName (k + 1) := by
        rw [← hc]
        simp [chunkCommand, Nat.zero_add]
      have hopts : c.options.length ≤ 25 := by
        rw [← hc]
        simp only [chunkCommand, List.length_map]
        exact chunks25_batch_le reactions batch (List.get?_mem hb)
      exact ⟨hname, hopts⟩
  · intro k hk
    unfold commandName
    rw [if_pos hk]
  · rw [chunkCommands, chunkCommandsFrom_options, chunks25_flatten]
  · unfold initCommands
    simp [List.length_append, hlen]
  · unfold initCommands
    simp [List.drop_left]

/-- Witness for C9 at a concrete two-reaction configuration with one
alias. -/
theorem init_command_registration_witness :
    (chunkCommands [⟨"hug", "d1", true, ["g/h"], ["dr"], ["br"], ["sr"]⟩,
        ⟨"pat", "d2", false, ["g/p"], ["dr"], ["br"], ["sr"]⟩]).get? 0
      = some (chunkCommand 1 [⟨"hug", "d1", true, ["g/h"], ["dr"], ["br"], ["sr"]⟩,
          ⟨"pat", "d2", false, ["g/p"], ["dr"], ["br"], ["sr"]⟩])
    ∧ ((chunkCommand 1 [⟨"hug", "d1", true, ["g/h"], ["dr"], ["br"], ["sr"]⟩,
          ⟨"pat", "d2", false, ["g/p"], ["dr"], ["br"], ["sr"]⟩]).name = commandName 1
        ∧ (chunkCommand 1 [⟨"hug", "d1", true, ["g/h"], ["dr"], ["br"], ["sr"]⟩,
            ⟨"pat", "d2", false, ["g/p"], ["dr"], ["br"], ["sr"]⟩]).options.length ≤ 25)
    ∧ (1 < 2 ∧ commandName 2 = "reaction" ++ toString 2) :=
  ⟨by simp [chunkCommands, chunks25, chunkCommandsFrom],
   (init_command_registration
      [⟨"hug", "d1", true, ["g/h"], ["dr"], ["br"], ["sr"]⟩,
       ⟨"pat", "d2", false, ["g/p"], ["dr"], ["br"], ["sr"]⟩]).2.1 0 _
     (by simp [chunkCommands, chunks25, chunkCommandsFrom]),
   by decide,
   (init_command_registration
      [⟨"hug", "d1", true, ["g/h"], ["dr"], ["br"], ["sr"]⟩,
       ⟨"pat", "d2", false, ["g/p"], ["dr"], ["br"], ["sr"]⟩]).2.2.2.1 2 (by decide)⟩

end Purrify
